import Mathlib

/-!
Verification of the WebRTC signaling system (relay + participant call state
machine) of this repository, as a shallow embedding in Lean 4.

Relay side (`src/api/sockets/videoCallSocketHandler.js`):
the server keeps a `connectedUsers` map keyed by socket id (an entry is
`set` on connection and `delete`d on disconnect), and the socket.io engine
keeps its own socket map `io.sockets.sockets`, updated at exactly the same
two points; both therefore hold the same key set at all times, and we model
that key set as a single duplicate-free list of ids.  The `callUser` and
`answerCall` handlers check liveness with `io.sockets.sockets.has(..)` and
either forward the payload or emit one `callError` back on the sender's own
socket.

Participant side (`src/unnamed/part_001`, the React context provider):
the state variables `callAccepted`, `callEnded`, `isCalling`, `call`,
`stream`, `userStream`, the refs `connectionRef` and the mirror refs of
`callAccepted` / `call` / `userStream` are modelled as one record
`ClientState`.  Each handler (`handleCallEnd`, the `callEnded` socket
listener, `callUser`, `answerCall`, `leaveCall`) is a function from state to
state together with the list of externally visible `Effect`s it performs
(peer creation/destruction, media-track stops, socket emissions, alerts).
`simple-peer` with `trickle:false` produces exactly one signal blob per
peer, so the single `peer.on('signal')` emission of the success path is
recorded as an effect of that path; guard paths create no peer, hence can
never emit.  Signal payloads are an arbitrary type `α`: the relay and the
client never inspect them.
-/

/-! ## Relay: connection registry -/

/-- A registry operation: a transport connecting (the server does
`connectedUsers.set(socket.id, ...)`) or disconnecting
(`connectedUsers.delete(socket.id)`). -/
inductive RegOp where
  | register (id : String)
  | unregister (id : String)
deriving DecidableEq, Repr

/-- Apply one registry operation to the current key set of the map.
`Map.set` on a present key only overwrites the value, so the key set gains
`id` exactly when absent; `Map.delete` removes the key and is a no-op on an
absent key. -/
def applyOp (s : List String) : RegOp → List String
  | .register id => if id ∈ s then s else id :: s
  | .unregister id => s.erase id

/-- Run a whole sequence of connect/disconnect operations from a start state. -/
def applyOps (s : List String) (ops : List RegOp) : List String :=
  ops.foldl applyOp s

/-- The relay's liveness check: key membership (`io.sockets.sockets.has(id)`,
equivalently `connectedUsers.has(id)`). -/
def isLive (s : List String) (id : String) : Bool :=
  id ∈ s

/-- Whether an operation talks about a given id. -/
def RegOp.mentions (op : RegOp) (id : String) : Bool :=
  match op with
  | .register i => i == id
  | .unregister i => i == id

/-- Declarative specification of liveness, independent of the map
implementation: an id is live after a sequence of operations exactly when
the last operation mentioning it is a `register`. -/
def specLive (ops : List RegOp) (id : String) : Bool :=
  match (ops.filter (fun op => op.mentions id)).getLast? with
  | some (.register _) => true
  | _ => false

/-- The empty-map starting state preserves `Nodup` through every operation. -/
theorem applyOp_nodup (s : List String) (op : RegOp) (h : s.Nodup) :
    (applyOp s op).Nodup := by
  cases op with
  | register id =>
    simp only [applyOp]
    split
    · exact h
    · exact List.Nodup.cons (by assumption) h
  | unregister id =>
    exact List.Nodup.erase id h

theorem applyOps_nodup (ops : List RegOp) (s : List String) (h : s.Nodup) :
    (applyOps s ops).Nodup := by
  induction ops generalizing s with
  | nil => exact h
  | cons op rest ih =>
    exact ih (applyOp s op) (applyOp_nodup s op h)

/-- On duplicate-free states, one step of the registry tracks exactly the
per-id set semantics: register makes the id live, unregister makes it dead,
operations on other ids change nothing about this id. -/
theorem isLive_applyOp (s : List String) (hs : s.Nodup) (op : RegOp) (id : String) :
    isLive (applyOp s op) id =
      (if op.mentions id then (match op with | .register _ => true | .unregister _ => false)
       else isLive s id) := by
  cases op with
  | register i =>
    simp only [applyOp, RegOp.mentions, isLive]
    by_cases hmem : i ∈ s
    · simp only [if_pos hmem]
      by_cases hid : i = id
      · subst hid
        simp [hmem]
      · simp [hid]
    · simp only [if_neg hmem, List.mem_cons]
      by_cases hid : i = id
      · subst hid
        simp
      · simp [hid, Ne.symm hid]
  | unregister i =>
    simp only [applyOp, RegOp.mentions, isLive]
    by_cases hid : i = id
    · subst hid
      simp [hs.not_mem_erase]
    · simp only [beq_iff_eq, if_neg hid]
      have hiff : id ∈ s.erase i ↔ id ∈ s :=
        List.mem_erase_of_ne (fun h => hid h.symm)
      simp [hiff]

/-- Generalized form of the registry correctness statement, by induction
from the back of the operation sequence. -/
theorem isLive_applyOps (ops : List RegOp) (s : List String) (hs : s.Nodup) (id : String) :
    isLive (applyOps s ops) id =
      (if (ops.filter (fun op => op.mentions id)) = [] then isLive s id
       else specLive ops id) := by
  induction ops using List.reverseRecOn with
  | nil => simp [applyOps, specLive]
  | append_singleton ops op ih =>
    have hnodup : (applyOps s ops).Nodup := applyOps_nodup ops s hs
    have hstep : applyOps s (ops ++ [op]) = applyOp (applyOps s ops) op := by
      simp [applyOps, List.foldl_append]
    rw [hstep, isLive_applyOp _ hnodup op id, ih]
    by_cases hm : op.mentions id
    · have hfilter : (ops ++ [op]).filter (fun o => o.mentions id) =
          ops.filter (fun o => o.mentions id) ++ [op] := by
        simp [List.filter_append, hm]
      simp only [hfilter, if_pos hm, specLive]
      rw [List.getLast?_append]
      cases op <;> simp [List.getLast?]
    · have hfilter : (ops ++ [op]).filter (fun o => o.mentions id) =
          ops.filter (fun o => o.mentions id) := by
        simp [List.filter_append, hm]
      simp only [hfilter, if_neg hm, specLive]

/-! ## Relay: message routing -/

/-- Events the relay can emit toward a client socket. -/
inductive RelayEvent (α : Type) where
  | callUserEvt (signal : α) (from_ : String) (name : String)
  | callAccepted (signal : α)
  | callError (message : String)
  | callEnded (disconnectedUserId : String)
  | meEvt (id : String)
deriving DecidableEq, Repr

/-- One transport send performed by the relay: a destination socket id and
the event delivered there. -/
structure RelayMsg (α : Type) where
  dest : String
  event : RelayEvent α
deriving DecidableEq, Repr

/-- The `callUser` handler of the relay: `live` is the current socket set,
`senderId` the socket the request arrived on, and the remaining arguments
are the destructured request fields.  If the destination is not live, emit
one `callError` on the sender's socket and stop; otherwise forward the
offer — the exact `signalData`, `from` and `name` received — to the
destination.  The returned list is the complete set of sends this handler
invocation performs. -/
def onCallUser (live : List String) (senderId userToCall : String)
    (signalData : α) (from_ name : String) : List (RelayMsg α) :=
  if isLive live userToCall then
    [⟨userToCall, .callUserEvt signalData from_ name⟩]
  else
    [⟨senderId, .callError "User not found or disconnected"⟩]

/-- The `answerCall` handler of the relay: forwards the exact answer
`signal` to the original caller `to` as a `callAccepted` event, or tells
the answering socket that the caller disconnected. -/
def onAnswerCall (live : List String) (senderId dst : String)
    (signal : α) : List (RelayMsg α) :=
  if isLive live dst then
    [⟨dst, .callAccepted signal⟩]
  else
    [⟨senderId, .callError "Caller disconnected"⟩]

/-- Claim C3: forwarding an offer to a destination that is not live at
forward time emits exactly one call-error event, addressed to the sender's
own socket, and nothing to anybody else — in particular nothing to the dead
destination. -/
theorem offer_to_dead_peer_one_error (live : List String)
    (senderId userToCall : String) (signalData : α) (from_ name : String)
    (h : isLive live userToCall = false) :
    onCallUser live senderId userToCall signalData from_ name =
      [⟨senderId, .callError "User not found or disconnected"⟩] ∧
    (onCallUser live senderId userToCall signalData from_ name).length = 1 ∧
    ∀ m ∈ onCallUser live senderId userToCall signalData from_ name,
      m.dest = senderId := by
  refine ⟨?_, ?_, ?_⟩ <;> simp [onCallUser, h]

/-- Witness for C3: a concrete dead destination. -/
theorem offer_to_dead_peer_one_error_witness :
    isLive ["A1"] "B2" = false ∧
    onCallUser (α := String) ["A1"] "A1" "B2" "OFFER-XYZ" "A1" "alice" =
      [⟨"A1", .callError "User not found or disconnected"⟩] :=
  ⟨by decide,
   (offer_to_dead_peer_one_error ["A1"] "A1" "B2" "OFFER-XYZ" "A1" "alice"
     (by decide)).1⟩

/-- Claim C4: for every finite sequence of connect/disconnect operations run
from the empty registry, the liveness check answers exactly the declarative
set semantics — an id is live iff the last operation mentioning it was a
register (so no leaked entries survive an unregister and no id never
registered is live) — and unregistering an id that is not live leaves the
registry unchanged. -/
theorem registry_tracks_registrations (ops : List RegOp) (id : String) :
    isLive (applyOps [] ops) id = specLive ops id ∧
    (∀ s : List String, isLive s id = false → applyOp s (.unregister id) = s) := by
  constructor
  · rw [isLive_applyOps ops [] List.nodup_nil id]
    by_cases hf : (ops.filter (fun op => op.mentions id)) = []
    · simp [hf, isLive, specLive]
    · simp [hf]
  · intro s hdead
    simp only [applyOp]
    apply List.erase_of_not_mem
    simpa [isLive] using hdead

/-- Witness for C4: register A1 and B2, unregister B2; A1 is live, B2 is
not, and a duplicate disconnect for B2 changes nothing. -/
theorem registry_tracks_registrations_witness :
    isLive (applyOps [] [.register "A1", .register "B2", .unregister "B2"]) "B2" =
      specLive [.register "A1", .register "B2", .unregister "B2"] "B2" ∧
    applyOp ["A1"] (.unregister "B2") = ["A1"] := by
  refine ⟨(registry_tracks_registrations _ "B2").1, ?_⟩
  exact (registry_tracks_registrations [] "B2").2 ["A1"] (by decide)

/-- Claim C5: when the destination is live, the relay forwards the offer
payload and the answer payload byte-for-byte unmodified: the forwarded
`callUser` event carries the exact `signalData`, `from` and `name` it
received, and the forwarded `callAccepted` event carries the exact answer
signal it received.  The payload type `α` is arbitrary: the relay never
inspects it. -/
theorem relay_payload_unmodified (live : List String) (senderId dst : String)
    (offerSig answerSig : α) (from_ name : String)
    (h : isLive live dst = true) :
    onCallUser live senderId dst offerSig from_ name =
      [⟨dst, .callUserEvt offerSig from_ name⟩] ∧
    onAnswerCall live senderId dst answerSig =
      [⟨dst, .callAccepted answerSig⟩] := by
  constructor <;> simp [onCallUser, onAnswerCall, h]

/-- Witness for C5: the spec's concrete scenario — ids A1/B2, offer blob
OFFER-XYZ forwarded unmodified to B2, answer blob ANSWER-XYZ forwarded
unmodified to A1. -/
theorem relay_payload_unmodified_witness :
    onCallUser ["A1", "B2"] "A1" "B2" "OFFER-XYZ" "A1" "alice" =
      [⟨"B2", .callUserEvt "OFFER-XYZ" "A1" "alice"⟩] ∧
    onAnswerCall ["A1", "B2"] "B2" "A1" "ANSWER-XYZ" =
      [⟨"A1", .callAccepted "ANSWER-XYZ"⟩] := by
  have h1 := (relay_payload_unmodified ["A1", "B2"] "A1" "B2"
    "OFFER-XYZ" "ANSWER-XYZ" "A1" "alice" (by decide)).1
  have h2 := (relay_payload_unmodified ["A1", "B2"] "B2" "A1"
    "OFFER-XYZ" "ANSWER-XYZ" "A1" "alice" (by decide)).2
  exact ⟨h1, h2⟩

/-! ## Participant: data model -/

/-- One media track of a `MediaStream`; `track.stop()` moves it to the
ended state and is a no-op on an already-ended track. -/
structure Track where
  kind : String
  live : Bool
deriving DecidableEq, Repr

/-- A media stream is its list of tracks. -/
structure MediaStream where
  tracks : List Track
deriving DecidableEq, Repr

/-- A `simple-peer` negotiation handle. -/
structure PeerHandle where
  initiator : Bool
deriving DecidableEq, Repr

/-- The `call` state object of the context provider.  The initial value is
the empty object `\x7b\x7d`: reading `isReceivingCall` or `signal` off it
yields a falsy value, modelled by the defaults below.  `callerName` mirrors
the listener's destructuring `name: callerName`. -/
structure CallInfo (α : Type) where
  isReceivingCall : Bool := false
  from_ : String := ""
  callerName : String := ""
  signal : Option α := none
deriving DecidableEq, Repr

/-- The participant-side state of the context provider: the React state
variables together with the `connectionRef` ref.  The mirror refs
`callAcceptedRef`, `callRef`, `userStreamRef` are kept equal to their state
variables by dedicated effects in the source, so they are not duplicated
here. -/
structure ClientState (α : Type) where
  callAccepted : Bool := false
  callEnded : Bool := false
  isCalling : Bool := false
  call : CallInfo α := {}
  stream : Option MediaStream := none
  userStream : Option MediaStream := none
  connectionRef : Option PeerHandle := none
  me : String := ""
  name : String := ""
deriving DecidableEq, Repr

/-- A socket emission performed by the participant. -/
inductive ClientEmit (α : Type) where
  | callUserEvt (userToCall : String) (signalData : α) (from_ : String) (name : String)
  | answerCallEvt (signal : α) (dst : String)
deriving DecidableEq, Repr

/-- Externally visible actions of a participant handler: transport sends,
negotiation-handle creation and destruction, media-track stops (recording
whether the track was still live when stopped), and alert dialogs. -/
inductive Effect (α : Type) where
  | emitSocket (e : ClientEmit α)
  | createPeer (initiator : Bool)
  | destroyPeer
  | stopTrack (wasLive : Bool)
  | alertBox (message : String)
deriving DecidableEq, Repr

def Effect.isEmit : Effect α → Bool
  | .emitSocket _ => true
  | _ => false

def Effect.isCreatePeer : Effect α → Bool
  | .createPeer _ => true
  | _ => false

def Effect.isDestroy : Effect α → Bool
  | .destroyPeer => true
  | _ => false

/-- `stream.getTracks().forEach(track => track.stop())`: the stream object
after every track has been stopped. -/
def stopTracks (m : MediaStream) : MediaStream :=
  ⟨m.tracks.map (fun t => { t with live := false })⟩

/-- The stop calls issued by stopping every track of a stream, each
recording whether that track was live at the time. -/
def stopEffects (m : MediaStream) : List (Effect α) :=
  m.tracks.map (fun t => .stopTrack t.live)

/-! ## Participant: handlers -/

/-- `handleCallEnd` of the context provider: set `callEnded`, clear
`callAccepted` and `isCalling`; then, each behind its own presence guard:
destroy and null the peer ref, stop every local track, stop every remote
track; finally null `userStream` and reset `call` to the empty object.
`stream` is never nulled.  The body performs no socket emission. -/
def handleCallEnd (s : ClientState α) : ClientState α × List (Effect α) :=
  let s1 : ClientState α :=
    { s with callEnded := true, callAccepted := false, isCalling := false }
  let step1 : ClientState α × List (Effect α) :=
    match s1.connectionRef with
    | some _ => ({ s1 with connectionRef := none }, [Effect.destroyPeer])
    | none => (s1, [])
  let step2 : ClientState α × List (Effect α) :=
    match step1.1.stream with
    | some m => ({ step1.1 with stream := some (stopTracks m) }, step1.2 ++ stopEffects m)
    | none => step1
  let step3 : ClientState α × List (Effect α) :=
    match step2.1.userStream with
    | some m => ({ step2.1 with userStream := some (stopTracks m) }, step2.2 ++ stopEffects m)
    | none => step2
  ({ step3.1 with userStream := none, call := {} }, step3.2)

/-- The in-call filter of the `callEnded` socket listener, read off the
current-value refs at delivery time:
`callAcceptedRef.current || callRef.current?.isReceivingCall ||
connectionRef.current || userStreamRef.current !== null`. -/
def isInCall (s : ClientState α) : Bool :=
  s.callAccepted || s.call.isReceivingCall || s.connectionRef.isSome || s.userStream.isSome

/-- The `callEnded` socket listener: if the in-call filter passes, run the
full cleanup; otherwise do nothing.  The delivered `disconnectedUserId` is
only logged — it is never compared against the current peer. -/
def onCallEnded (s : ClientState α) (disconnectedUserId : String) :
    ClientState α × List (Effect α) :=
  if isInCall s then handleCallEnd s else (s, [])

/-- The socket `callUser` listener of the participant: record the incoming
offer in the `call` state object. -/
def onIncomingCall (s : ClientState α) (from_ callerName : String) (signal : α) :
    ClientState α :=
  { s with
      call :=
      { isReceivingCall := true, from_ := from_, callerName := callerName,
        signal := some signal } }

/-- The guard `id.trim()` of the source, modelled directly on the character
list: strip leading and trailing whitespace. -/
def jsTrim (s : String) : String :=
  ⟨((s.data.dropWhile Char.isWhitespace).reverse.dropWhile Char.isWhitespace).reverse⟩

/-- `callUser(id)` of the context provider.  Guards, in source order: empty
or blank id; no local stream (alert); calling oneself (alert).  Past the
guards: set `isCalling`, clear `callEnded`, create the initiator peer and
store it in `connectionRef`; `trickle:false` makes the peer produce exactly
one offer blob `offerSig`, which the registered signal handler emits as a
`callUser` request carrying `userToCall`, the blob, `from: me` and
`name: name || Anonymous`. -/
def callUser (s : ClientState α) (offerSig : α) (id : String) :
    ClientState α × List (Effect α) :=
  if id = "" ∨ jsTrim id = "" then
    (s, [])
  else if s.stream.isNone then
    (s, [Effect.alertBox "Please enable your camera first!"])
  else if id = s.me then
    (s, [Effect.alertBox "You cannot call yourself!"])
  else
    ({ s with
        isCalling := true,
        callEnded := false,
        connectionRef := some ⟨true⟩ },
     [Effect.createPeer true,
      Effect.emitSocket (.callUserEvt id offerSig s.me
        (if s.name = "" then "Anonymous" else s.name))])

/-- `answerCall()` of the context provider.  Guards, in source order: no
local stream (alert); no stored offer signal.  Past the guards: set
`callAccepted`, clear `isCalling`, create the answerer peer and store it;
the peer's single answer blob `answerSig` is emitted as an `answerCall`
request addressed to `call.from`. -/
def answerCall (s : ClientState α) (answerSig : α) :
    ClientState α × List (Effect α) :=
  if s.stream.isNone then
    (s, [Effect.alertBox "Please enable your camera first!"])
  else
    match s.call.signal with
    | none => (s, [])
    | some _ =>
      ({ s with
          callAccepted := true,
          isCalling := false,
          connectionRef := some ⟨false⟩ },
       [Effect.createPeer false,
        Effect.emitSocket (.answerCallEvt answerSig s.call.from_)])

/-- `leaveCall()` of the context provider: exactly the cleanup path. -/
def leaveCall (s : ClientState α) : ClientState α × List (Effect α) :=
  handleCallEnd s

/-- A concrete participant state in an active call with peer B2, holding
live local and remote streams and a live peer handle. -/
def exStream : MediaStream :=
  ⟨[⟨"video", true⟩, ⟨"audio", true⟩]⟩

def exActive : ClientState String :=
  { callAccepted := true, callEnded := false, isCalling := false,
    call := { isReceivingCall := false, from_ := "B2", callerName := "bob",
              signal := some "OFFER-XYZ" },
    stream := some exStream, userStream := some ⟨[⟨"video", true⟩]⟩,
    connectionRef := some ⟨true⟩, me := "A1", name := "alice" }

/-- Complete characterization of the cleanup path: the resulting state and
the exact effect list, as functions of the three presence guards. -/
theorem handleCallEnd_spec (s : ClientState α) :
    (handleCallEnd s).1 =
      { s with
        callEnded := true,
        callAccepted := false,
        isCalling := false,
        connectionRef := none,
        stream := s.stream.map stopTracks,
        userStream := none,
        call := {} } ∧
    (handleCallEnd s).2 =
      (match s.connectionRef with
        | some _ => [Effect.destroyPeer]
        | none => []) ++
      (match s.stream with
        | some m => stopEffects m
        | none => []) ++
      (match s.userStream with
        | some m => stopEffects m
        | none => []) := by
  cases hc : s.connectionRef <;> cases hs : s.stream <;> cases hu : s.userStream <;>
    simp [handleCallEnd, hc, hs, hu]

/-- No branch of the cleanup path performs a socket emission. -/
theorem handleCallEnd_no_emit (s : ClientState α) (e : Effect α)
    (he : e ∈ (handleCallEnd s).2) : Effect.isEmit e = false := by
  cases hc : s.connectionRef <;> cases hs : s.stream <;> cases hu : s.userStream <;>
    simp [handleCallEnd, hc, hs, hu, stopEffects] at he <;> aesop

/-- Stopping the tracks of an already-stopped stream records only no-op
stops of ended tracks. -/
theorem mem_stopEffects_stopTracks (m : MediaStream) (e : Effect α)
    (he : e ∈ stopEffects (α := α) (stopTracks m)) :
    e = Effect.stopTrack false := by
  simp [stopEffects, stopTracks] at he
  aesop

/-- Track stops are never peer destructions. -/
theorem stopEffects_no_destroy (m : MediaStream) :
    (stopEffects (α := α) m).countP Effect.isDestroy = 0 := by
  simp [stopEffects, List.countP_map]
  intro a _
  rfl

/-- Claim C1, evaluated at a failing input: the `callEnded` listener never
compares the delivered id with the current peer.  With an active call to
peer B2, a broadcast naming the unrelated id C3 is not ignored — the
handler tears the whole call down (the peer handle is destroyed, the
accepted flag cleared), contradicting the required stale-event filter. -/
theorem call_ended_ignores_event_id :
    exActive.call.from_ = "B2" ∧
    exActive.callAccepted = true ∧
    (onCallEnded exActive "C3").1 ≠ exActive ∧
    (onCallEnded exActive "C3").1.connectionRef = none ∧
    (onCallEnded exActive "C3").1.callAccepted = false ∧
    Effect.destroyPeer ∈ (onCallEnded exActive "C3").2 := by
  decide

/-- Claim C2, counterexample: in an active call whose peer B2 is still live
on the relay (hence addressable), a local hangup performs no socket
emission at all — the courtesy teardown notice the claim requires does not
exist in the code. -/
theorem leave_call_emits_no_notice :
    isLive ["A1", "B2"] "B2" = true ∧
    exActive.call.from_ = "B2" ∧
    (leaveCall exActive).2.filter Effect.isEmit = [] := by
  decide

/-- Claim C2, amended: an explicit local hangup always destroys the
negotiation handle, stops every local and remote media track, and resets
the call session (peer ref nulled, remote stream nulled, call record
emptied, accepted flag cleared); it never emits any teardown notice to the
peer over the transport. -/
theorem leave_call_cleanup (s : ClientState α) (m : MediaStream)
    (h : s.stream = some m) :
    (leaveCall s).1.connectionRef = none ∧
    (leaveCall s).1.stream = some (stopTracks m) ∧
    (∀ t ∈ (stopTracks m).tracks, t.live = false) ∧
    (leaveCall s).1.userStream = none ∧
    (leaveCall s).1.call = ({} : CallInfo α) ∧
    (leaveCall s).1.callAccepted = false ∧
    (∀ e ∈ (leaveCall s).2, Effect.isEmit e = false) := by
  have hspec := (handleCallEnd_spec s).1
  refine ⟨?_, ?_, ?_, ?_, ?_, ?_, ?_⟩
  · rw [leaveCall, hspec]
  · rw [leaveCall, hspec]
    simp [h]
  · intro t ht
    simp [stopTracks] at ht
    obtain ⟨t0, _, rfl⟩ := ht
    rfl
  · rw [leaveCall, hspec]
  · rw [leaveCall, hspec]
  · rw [leaveCall, hspec]
  · intro e he
    exact handleCallEnd_no_emit s e he

/-- Witness for the amended C2, at the concrete active-call state. -/
theorem leave_call_cleanup_witness :
    (leaveCall exActive).1.connectionRef = none :=
  (leave_call_cleanup exActive exStream rfl).1

/-- Claim C6: initiating a call with no local media handle fails
immediately and locally: the state is returned unmodified, no peer is
created, and nothing is emitted on the transport — the only action is a
local alert. -/
theorem call_user_no_media_noop (s : ClientState α) (offerSig : α) (id : String)
    (h : s.stream = none) :
    (callUser s offerSig id).1 = s ∧
    (∀ e ∈ (callUser s offerSig id).2,
      Effect.isEmit e = false ∧ Effect.isCreatePeer e = false) := by
  by_cases h1 : id = "" ∨ jsTrim id = ""
  · constructor <;> simp [callUser, h1]
  · constructor <;> simp [callUser, h1, h, Effect.isEmit, Effect.isCreatePeer]

/-- Witness for C6: a fresh participant with no local stream calling B2. -/
theorem call_user_no_media_noop_witness :
    (callUser ({} : ClientState String) "OFFER-XYZ" "B2").1 = {} :=
  (call_user_no_media_noop {} "OFFER-XYZ" "B2" rfl).1

/-- Claim C7: a `callEnded` broadcast delivered while the participant is
not in or receiving a call leaves the state unchanged and performs no
action; and after any delivered broadcast has been handled, a second
identical broadcast is a no-op (the receiver is back to the not-in-call
configuration). -/
theorem call_ended_idle_noop (s t : ClientState α) (id idt : String)
    (h : isInCall s = false) :
    onCallEnded s id = (s, []) ∧
    onCallEnded (onCallEnded t idt).1 idt = ((onCallEnded t idt).1, []) := by
  constructor
  · simp [onCallEnded, h]
  · by_cases ht : isInCall t
    · have h1 : (onCallEnded t idt).1 = (handleCallEnd t).1 := by
        simp [onCallEnded, ht]
      have h2 : isInCall (onCallEnded t idt).1 = false := by
        rw [h1, (handleCallEnd_spec t).1]
        rfl
      generalize hu : (onCallEnded t idt).1 = u at h2 ⊢
      simp [onCallEnded, h2]
    · have h1 : onCallEnded t idt = (t, []) := by
        simp [onCallEnded, ht]
      rw [h1]
      simp [onCallEnded, ht]

/-- Witness for C7: an idle fresh participant ignores a broadcast naming C3. -/
theorem call_ended_idle_noop_witness :
    onCallEnded ({} : ClientState String) "C3" = ({}, []) :=
  (call_ended_idle_noop {} exActive "C3" "B2" rfl).1

/-- Claim C8: running the cleanup path a second time after it has already
run is safe: across both runs the peer handle is destroyed at most once,
the second run destroys no peer at all, and the second run stops no track
that is still live (media is never double-released — its only collaborator
calls are no-op stops of already-ended tracks).  Every collaborator call is
behind a presence guard, so the embedded cleanup is a total function on all
states: no execution path of it can throw. -/
theorem double_cleanup_safe (s : ClientState α) :
    (handleCallEnd (handleCallEnd s).1).2.countP Effect.isDestroy = 0 ∧
    (handleCallEnd s).2.countP Effect.isDestroy +
      (handleCallEnd (handleCallEnd s).1).2.countP Effect.isDestroy ≤ 1 ∧
    (∀ e ∈ (handleCallEnd (handleCallEnd s).1).2,
      e ≠ Effect.destroyPeer ∧ e ≠ Effect.stopTrack true) := by
  have h2nd : (handleCallEnd (handleCallEnd s).1).2 =
      (match s.stream.map stopTracks with
        | some m => stopEffects m
        | none => []) := by
    rw [(handleCallEnd_spec (handleCallEnd s).1).2, (handleCallEnd_spec s).1]
    simp
  have hzero : (handleCallEnd (handleCallEnd s).1).2.countP Effect.isDestroy = 0 := by
    rw [h2nd]
    cases hs : s.stream with
    | none => rfl
    | some m =>
      show (stopEffects (α := α) (stopTracks m)).countP Effect.isDestroy = 0
      exact stopEffects_no_destroy (stopTracks m)
  refine ⟨hzero, ?_, ?_⟩
  · rw [hzero]
    rw [(handleCallEnd_spec s).2]
    simp only [List.countP_append, stopEffects_no_destroy]
    cases hc : s.connectionRef <;> cases hs : s.stream <;> cases hu : s.userStream <;>
      simp [stopEffects_no_destroy, Effect.isDestroy, List.countP_cons]
  · intro e he
    rw [h2nd] at he
    cases hs : s.stream with
    | none =>
      rw [hs] at he
      simp at he
    | some m =>
      rw [hs] at he
      have he2 : e ∈ stopEffects (α := α) (stopTracks m) := he
      have heq := mem_stopEffects_stopTracks m e he2
      subst heq
      exact ⟨by simp, by simp⟩

/-- Witness-style instance for C8 at the concrete active-call state. -/
theorem double_cleanup_safe_witness :
    (handleCallEnd (handleCallEnd exActive).1).2.countP Effect.isDestroy = 0 :=
  (double_cleanup_safe exActive).1

/-- Claim C9: calling the own id is rejected locally: whichever guard
fires, the state is returned unmodified, no peer is created and nothing is
emitted on the transport, so no relay traffic can result. -/
theorem call_self_rejected (s : ClientState α) (offerSig : α) :
    (callUser s offerSig s.me).1 = s ∧
    (∀ e ∈ (callUser s offerSig s.me).2,
      Effect.isEmit e = false ∧ Effect.isCreatePeer e = false) := by
  by_cases h1 : s.me = "" ∨ jsTrim s.me = ""
  · constructor <;> simp [callUser, h1]
  · by_cases h2 : s.stream.isNone
    · constructor <;> simp [callUser, h1, h2, Effect.isEmit, Effect.isCreatePeer]
    · constructor <;> simp [callUser, h1, h2, Effect.isEmit, Effect.isCreatePeer]

/-- Witness-style instance for C9: the active-call participant A1 calling
its own id A1. -/
theorem call_self_rejected_witness :
    (callUser exActive "OFFER-XYZ" exActive.me).1 = exActive :=
  (call_self_rejected exActive "OFFER-XYZ").1

/-- Claim C10: after the cleanup path completes, the remote stream is
nulled and the incoming-call record emptied, but the local stream variable
still references the now-stopped stream (it is never nulled); consequently
a later `callUser` with a valid non-self id, and a later `answerCall` once
a new offer has arrived, both pass the no-local-stream guard and create a
peer even though every track of that stream is stopped. -/
theorem cleanup_keeps_stale_stream (s : ClientState α) (m : MediaStream)
    (offerSig answerSig sig : α) (id peerId callerName : String)
    (h : s.stream = some m) (hid1 : ¬ id = "") (hid2 : ¬ jsTrim id = "")
    (hid3 : ¬ id = s.me) :
    (handleCallEnd s).1.userStream = none ∧
    (handleCallEnd s).1.call = ({} : CallInfo α) ∧
    (handleCallEnd s).1.stream = some (stopTracks m) ∧
    (∀ t ∈ (stopTracks m).tracks, t.live = false) ∧
    Effect.createPeer true ∈ (callUser (handleCallEnd s).1 offerSig id).2 ∧
    Effect.createPeer false ∈
      (answerCall (onIncomingCall (handleCallEnd s).1 peerId callerName sig)
        answerSig).2 := by
  have hspec := (handleCallEnd_spec s).1
  have hstream : (handleCallEnd s).1.stream = some (stopTracks m) := by
    rw [hspec]
    simp [h]
  have hme : (handleCallEnd s).1.me = s.me := by
    rw [hspec]
  refine ⟨?_, ?_, hstream, ?_, ?_, ?_⟩
  · rw [hspec]
  · rw [hspec]
  · intro t ht
    simp [stopTracks] at ht
    obtain ⟨t0, _, rfl⟩ := ht
    rfl
  · simp [callUser, hid1, hid2, hid3, hme, hstream]
  · simp [answerCall, onIncomingCall, hstream]

/-- Witness for C10: the active-call participant, after hangup, can start a
new call to B2 on the dead stream. -/
theorem cleanup_keeps_stale_stream_witness :
    Effect.createPeer true ∈
      (callUser (handleCallEnd exActive).1 "OFFER-2" "B2").2 :=
  (cleanup_keeps_stale_stream exActive exStream "OFFER-2" "ANSWER-2" "SIG-2"
    "B2" "B2" "bob" rfl (by decide) (by decide) (by decide)).2.2.2.2.1
